import Mathlib

/-!
# Verification of the Signal-Desktop protocol state core

Shallow embedding of `ts/SignalProtocolStore.ts` (credential & session store)
and `ts/textsecure/ProvisioningCipher.ts` (provisioning cipher) of the
claasklar/Signal-Desktop repository, together with proofs settling the
frozen claims about them.

Modelling conventions:
* byte buffers (`ArrayBuffer`/`Uint8Array`) are `List Nat`;
* JavaScript objects used as string-keyed dictionaries are association
  lists (`JMap`), whose insert keeps the original position of an existing
  key, as JS property update does;
* `async` code is sequentialised; operations take the store state and
  return `Except String (result × state)`.  A thrown JS error is
  `.error msg`; claims only concern successful runs or runs that fail
  before any mutation, so an error result carries no state;
* object identity (needed for the hydration-idempotence claim) is made
  observable by an allocation counter `nextRef` in the state: every
  freshly constructed protocol object (a hydrated prekey, signed prekey
  or session record) carries the `ref` it was allocated with, so two
  independently constructed objects never compare equal;
* external collaborators (conversation directory, persistence gateway,
  libsignal primitives, clock) are fields of an environment record.
-/

abbrev Bytes := List Nat

deriving instance DecidableEq for Except

/-! ## JS-style association maps -/

abbrev JMap (κ α : Type) : Type := List (κ × α)

def jget [DecidableEq κ] : JMap κ α → κ → Option α
  | [], _ => none
  | (k', v) :: rest, k => if k' = k then some v else jget rest k

def jset [DecidableEq κ] : JMap κ α → κ → α → JMap κ α
  | [], k, v => [(k, v)]
  | (k', v') :: rest, k, v =>
      if k' = k then (k', v) :: rest else (k', v') :: jset rest k v

def jdel [DecidableEq κ] : JMap κ α → κ → JMap κ α
  | [], _ => []
  | (k', v') :: rest, k =>
      if k' = k then jdel rest k else (k', v') :: jdel rest k

/-- `Object.values(m)`. -/
def jvalues (m : JMap κ α) : List α := m.map (·.2)

theorem jget_jset_self [DecidableEq κ] (m : JMap κ α) (k : κ) (v : α) :
    jget (jset m k v) k = some v := by
  induction m with
  | nil => simp [jget, jset]
  | cons p rest ih =>
      by_cases h : p.1 = k
      · cases p; simp_all [jget, jset]
      · cases p; simp_all [jget, jset]

theorem jget_jset_ne [DecidableEq κ] (m : JMap κ α) (k k' : κ) (v : α)
    (h : k ≠ k') : jget (jset m k v) k' = jget m k' := by
  induction m with
  | nil => simp [jget, jset, h]
  | cons p rest ih =>
      obtain ⟨pk, pv⟩ := p
      by_cases hp : pk = k
      · subst hp; simp_all [jget, jset]
      · by_cases hp' : pk = k' <;> simp_all [jget, jset]

theorem jget_jdel_self [DecidableEq κ] (m : JMap κ α) (k : κ) :
    jget (jdel m k) k = none := by
  induction m with
  | nil => simp [jget, jdel]
  | cons p rest ih =>
      by_cases h : p.1 = k
      · cases p; simp_all [jdel]
      · cases p; simp_all [jget, jdel]

/-! ## Strings: `unencodeNumber` and `parseInt`

`window.textsecure.utils.unencodeNumber` lives outside `src/`.
Modelled from the spec: addresses are `"<identifier>.<deviceId>"` strings
and session ids are `"<peerId>.<deviceId>"` (§3, §4.1); the store itself
re-applies `unencodeNumber` to normalized ids (`storeSession`,
`archiveSiblingSessions`), so the function splits a string at every `'.'`.
-/

def splitDots : List Char → List (List Char)
  | [] => [[]]
  | c :: cs =>
      let r := splitDots cs
      if c = '.' then [] :: r
      else
        match r with
        | [] => [[c]]
        | h :: t => (c :: h) :: t

def unencodeNumber (s : String) : List String :=
  (splitDots s.data).map String.mk

/-- `parseInt(s, 10)` restricted to non-negative inputs: parse the leading
digits; `none` models `NaN`. -/
def parseInt10 (s : String) : Option Nat :=
  let ds := s.data.takeWhile Char.isDigit
  if ds = [] then none
  else some (ds.foldl (fun acc c => acc * 10 + (c.toNat - 48)) 0)

/-- First component of `unencodeNumber` (the destructured `identifier`). -/
def firstPartD (s : String) : String := (unencodeNumber s).headD ""

/-- Second component of `unencodeNumber` (the destructured `deviceId`;
`"undefined"` when absent, as JS destructuring yields `undefined`). -/
def secondPartD (s : String) : String := ((unencodeNumber s).get? 1).getD "undefined"

/-- JS `a !== b` on numbers where `none` models `NaN` (`NaN !== x` is
always `true`, including `x = NaN`). -/
def jsNeqOpt : Option Nat → Option Nat → Bool
  | some x, some y => decide (x ≠ y)
  | _, _ => true

example : unencodeNumber "alice.1" = ["alice", "1"] := by decide
example : parseInt10 "12" = some 12 := by decide
example : jsNeqOpt (some 1) (some 1) = false := by decide

/-! ## Data model (`ts/textsecure/Types.d`) -/

structure KeyPairType where
  pubKey : Bytes
  privKey : Bytes
deriving DecidableEq

/-- `VerifiedStatus` constants from `SignalProtocolStore.ts`. -/
def VerifiedDEFAULT : Nat := 0
def VerifiedVERIFIED : Nat := 1
def VerifiedUNVERIFIED : Nat := 2

/-- `Direction` from libsignal-client (`Sending`, `Receiving`). -/
def DirectionSending : Nat := 0
def DirectionReceiving : Nat := 1

/-- Per-peer identity record.  `publicKey = none` models a record whose
key was removed (`!identityRecord.publicKey` in the source). -/
structure IdentityKeyType where
  id : String
  publicKey : Option Bytes
  firstUse : Bool
  timestamp : Nat
  verified : Nat
  nonblockingApproval : Bool
deriving DecidableEq

structure SessionType where
  id : String
  version : Option Nat
  conversationId : String
  deviceId : Option Nat
  record : String
deriving DecidableEq

structure PreKeyType where
  id : Nat
  publicKey : Bytes
  privateKey : Bytes
deriving DecidableEq

structure SignedPreKeyType where
  id : Nat
  publicKey : Bytes
  privateKey : Bytes
  created_at : Nat
  confirmed : Bool
deriving DecidableEq

/-! Hydrated (libsignal-client) objects.  Each carries the allocation
reference it was constructed with, making object identity observable. -/

structure PreKeyRecord where
  ref : Nat
  id : Nat
  publicKey : Bytes
  privateKey : Bytes
deriving DecidableEq

structure SignedPreKeyRecord where
  ref : Nat
  id : Nat
  createdAt : Nat
  pubKey : Bytes
  privKey : Bytes
  signature : Bytes
deriving DecidableEq

/-- A deserialized `SessionRecord`; `contents` is its canonical serialized
form (serialization is modelled as the identity on `contents`). -/
structure SessionRecord where
  ref : Nat
  contents : String
deriving DecidableEq

structure PublicKeyH where
  ref : Nat
  key : Bytes
deriving DecidableEq

/-- `CacheEntryType`: cold (raw persisted form) or hydrated. -/
inductive CacheEntry (D H : Type) where
  | cold (fromDB : D)
  | hydrated (fromDB : D) (item : H)
deriving DecidableEq

def CacheEntry.fromDB : CacheEntry D H → D
  | .cold d => d
  | .hydrated d _ => d

inductive StoreEvent where
  | keychange (identifier : String)
  | removePreKeyEvent
deriving DecidableEq

/-- Persistence Gateway contents (`window.Signal.Data`), mirrored so that
writes are observable. -/
structure DB where
  identityKeys : JMap String IdentityKeyType
  sessions : JMap String SessionType
  preKeys : JMap Nat PreKeyType
  signedPreKeys : JMap Nat SignedPreKeyType
deriving DecidableEq

/-- External collaborators of the store. -/
structure StoreEnv where
  /-- `ConversationController.getOrCreate(identifier,'private').get('id')`;
  `none` models a thrown lookup error. -/
  getOrCreate : String → Option String
  /-- `ConversationController.getConversationId`; `none` = `undefined`. -/
  getConversationId : String → Option String
  ourNumber : Option String
  ourUuid : Option String
  /-- `Date.now()`. -/
  now : Nat
  /-- `fromEncodedBinaryToArrayBuffer` (in `ts/Crypto.ts`, outside the
  provided sources): abstract coercion of a binary string. -/
  fromEncodedBinary : String → Bytes
  /-- `SessionRecord.hasCurrentState` on the serialized form. -/
  recHasCurrent : String → Bool
  /-- Effect of `SessionRecord.archiveCurrentState` on the serialized form. -/
  archiveStr : String → String
  /-- `sessionRecordToProtobuf (JSON.parse record) {identityKeyPublic,
  registrationId}` followed by `sessionStructureToArrayBuffer`
  (in `ts/util/sessionTranslation.ts`, outside the provided sources);
  `.error` models a thrown migration error. -/
  migrateLegacy : String → Bytes → Nat → Except String String

structure StoreState where
  ourIdentityKey : Option KeyPairType
  ourRegistrationId : Option Nat
  identityKeys : Option (JMap String (CacheEntry IdentityKeyType PublicKeyH))
  sessions : Option (JMap String (CacheEntry SessionType SessionRecord))
  preKeys : Option (JMap Nat (CacheEntry PreKeyType PreKeyRecord))
  signedPreKeys : Option (JMap Nat (CacheEntry SignedPreKeyType SignedPreKeyRecord))
  db : DB
  events : List StoreEvent
  nextRef : Nat
deriving DecidableEq

/-- Backbone `this.trigger(...)`; delivery failures are caught by every
caller in the source, so triggering never fails. -/
def trigger (st : StoreState) (e : StoreEvent) : StoreState :=
  { st with events := st.events ++ [e] }

/-! ## PreKeys -/

/-- `loadPreKey`.  Hydration (`hydratePreKey`) deserializes both keys and
calls `PreKeyRecord.new`, constructing a fresh object. -/
def loadPreKey (st : StoreState) (keyId : Nat) :
    Except String (Option PreKeyRecord × StoreState) :=
  match st.preKeys with
  | none => .error "loadPreKey: this.preKeys not yet cached!"
  | some pk =>
    match jget pk keyId with
    | none => .ok (none, st)
    | some (.hydrated _ item) => .ok (some item, st)
    | some (.cold fromDB) =>
        let item : PreKeyRecord :=
          { ref := st.nextRef, id := fromDB.id,
            publicKey := fromDB.publicKey, privateKey := fromDB.privateKey }
        .ok (some item,
          { st with
            nextRef := st.nextRef + 1,
            preKeys := some (jset pk keyId (.hydrated fromDB item)) })

/-- `removePreKey`: fires the observer (failure caught), evicts the cache
entry and deletes from persistence (idempotent). -/
def removePreKey (st : StoreState) (keyId : Nat) :
    Except String (Unit × StoreState) :=
  match st.preKeys with
  | none => .error "removePreKey: this.preKeys not yet cached!"
  | some pk =>
    let st1 := trigger st .removePreKeyEvent
    .ok ((),
      { st1 with
        preKeys := some (jdel pk keyId),
        db := { st1.db with preKeys := jdel st1.db.preKeys keyId } })

/-- `loadSignedPreKey` (`hydrateSignedPreKey` constructs the record with
an empty signature). -/
def loadSignedPreKey (st : StoreState) (keyId : Nat) :
    Except String (Option SignedPreKeyRecord × StoreState) :=
  match st.signedPreKeys with
  | none => .error "loadSignedPreKey: this.signedPreKeys not yet cached!"
  | some spk =>
    match jget spk keyId with
    | none => .ok (none, st)
    | some (.hydrated _ item) => .ok (some item, st)
    | some (.cold fromDB) =>
        let item : SignedPreKeyRecord :=
          { ref := st.nextRef, id := fromDB.id, createdAt := fromDB.created_at,
            pubKey := fromDB.publicKey, privKey := fromDB.privateKey,
            signature := [] }
        .ok (some item,
          { st with
            nextRef := st.nextRef + 1,
            signedPreKeys := some (jset spk keyId (.hydrated fromDB item)) })

/-! ## Sessions -/

/-- `normalizeEncodedAddress`: resolve the identifier through the
directory; a lookup failure propagates as an error. -/
def normalizeEncodedAddress (env : StoreEnv) (encodedAddress : String) :
    Except String String :=
  let identifier := firstPartD encodedAddress
  let deviceId := secondPartD encodedAddress
  match env.getOrCreate identifier with
  | none => .error "could not get conversation for identifier"
  | some convId => .ok (convId ++ "." ++ deviceId)

/-- `_maybeMigrateSession`: `version = 2` records are deserialized
directly; any other explicit version is a fatal error; legacy records are
translated using this device's identity key pair and registration id. -/
def maybeMigrateSession (env : StoreEnv) (st : StoreState)
    (session : SessionType) : Except String (SessionRecord × StoreState) :=
  if session.version = some 2 then
    .ok ({ ref := st.nextRef, contents := session.record },
         { st with nextRef := st.nextRef + 1 })
  else if session.version ≠ none then
    .error "_maybeMigrateSession: Unknown session version type!"
  else
    match st.ourIdentityKey with
    | none => .error "_maybeMigrateSession: No identity key for ourself!"
    | some keyPair =>
      match st.ourRegistrationId with
      | none => .error "_maybeMigrateSession: No registration id for ourself!"
      | some registrationId =>
        match env.migrateLegacy session.record keyPair.pubKey registrationId with
        | .error e => .error e
        | .ok migrated =>
            .ok ({ ref := st.nextRef, contents := migrated },
                 { st with nextRef := st.nextRef + 1 })

/-- `loadSession`.  The whole body after the hydration check sits in a
`try`/`catch` that logs and resolves to `undefined`, so normalization and
migration failures yield an absent result, not an error. -/
def loadSession (env : StoreEnv) (st : StoreState) (encodedAddress : String) :
    Except String (Option SessionRecord × StoreState) :=
  match st.sessions with
  | none => .error "loadSession: this.sessions not yet cached!"
  | some sess =>
    match normalizeEncodedAddress env encodedAddress with
    | .error _ => .ok (none, st)
    | .ok id =>
      match jget sess id with
      | none => .ok (none, st)
      | some (.hydrated _ item) => .ok (some item, st)
      | some (.cold fromDB) =>
        match maybeMigrateSession env st fromDB with
        | .error _ => .ok (none, st)
        | .ok (item, st') =>
            .ok (some item,
              { st' with sessions := some (jset sess id (.hydrated fromDB item)) })

/-- `storeSession`: always writes `version = 2`, to the Persistence
Gateway and then the cache (hydrated, keeping the given record object). -/
def storeSession (env : StoreEnv) (st : StoreState) (encodedAddress : String)
    (record : SessionRecord) : Except String (Unit × StoreState) :=
  match st.sessions with
  | none => .error "storeSession: this.sessions not yet cached!"
  | some sess =>
    let deviceId := parseInt10 (secondPartD encodedAddress)
    match normalizeEncodedAddress env encodedAddress with
    | .error e => .error e
    | .ok id =>
      let fromDB : SessionType :=
        { id := id, version := some 2,
          conversationId := firstPartD id,
          deviceId := deviceId, record := record.contents }
      .ok ((),
        { st with
          db := { st.db with sessions := jset st.db.sessions id fromDB },
          sessions := some (jset sess id (.hydrated fromDB record)) })

/-- `_archiveSession`: enqueue on the peer-device queue (sequentialised
here; queue-selection normalization failures still propagate), migrate if
cold, and if the record has current state archive it in place and persist
through `storeSession`. -/
def archiveSessionEntry (env : StoreEnv)
    (entry : CacheEntry SessionType SessionRecord) (st : StoreState) :
    Except String (Unit × StoreState) :=
  match normalizeEncodedAddress env entry.fromDB.id with
  | .error e => .error e
  | .ok _ =>
    match
      (match entry with
       | .hydrated _ item => .ok (item, st)
       | .cold fromDB => maybeMigrateSession env st fromDB :
        Except String (SessionRecord × StoreState)) with
    | .error e => .error e
    | .ok (item, st1) =>
      if env.recHasCurrent item.contents = false then .ok ((), st1)
      else
        storeSession env st1 entry.fromDB.id
          { item with contents := env.archiveStr item.contents }

/-- `Promise.all` over `entries.map(entry => _archiveSession(entry))`,
sequentialised. -/
def archiveEntryList (env : StoreEnv) :
    List (CacheEntry SessionType SessionRecord) → StoreState →
    Except String (Unit × StoreState)
  | [], st => .ok ((), st)
  | e :: rest, st =>
    match archiveSessionEntry env e st with
    | .error err => .error err
    | .ok (_, st') => archiveEntryList env rest st'

/-- `archiveSiblingSessions`: archive every session of the same peer with
a different device id than the given address. -/
def archiveSiblingSessions (env : StoreEnv) (st : StoreState)
    (encodedAddress : String) : Except String (Unit × StoreState) :=
  match st.sessions with
  | none => .error "archiveSiblingSessions: this.sessions not yet cached!"
  | some sess =>
    match normalizeEncodedAddress env encodedAddress with
    | .error e => .error e
    | .ok id =>
      let identifier := firstPartD id
      let deviceIdNumber := parseInt10 (secondPartD id)
      let entries := (jvalues sess).filter fun entry =>
        entry.fromDB.conversationId = identifier &&
          jsNeqOpt entry.fromDB.deviceId deviceIdNumber
      archiveEntryList env entries st

/-- `getDeviceIds` body inside `Promise.all`: device ids of entries whose
(hydrated or freshly migrated) record reports current state. -/
def collectDeviceIds (env : StoreEnv) :
    List (CacheEntry SessionType SessionRecord) → StoreState →
    Except String (List (Option Nat) × StoreState)
  | [], st => .ok ([], st)
  | e :: rest, st =>
    match
      (match e with
       | .hydrated fromDB item =>
           .ok ((if env.recHasCurrent item.contents then some fromDB.deviceId
                 else none), st)
       | .cold fromDB =>
         match maybeMigrateSession env st fromDB with
         | .error err => .error err
         | .ok (rec, st') =>
             .ok ((if env.recHasCurrent rec.contents then some fromDB.deviceId
                   else none), st') :
        Except String (Option (Option Nat) × StoreState)) with
    | .error err => .error err
    | .ok (r, st') =>
      match collectDeviceIds env rest st' with
      | .error err => .error err
      | .ok (rs, st'') =>
          .ok ((match r with | some d => d :: rs | none => rs), st'')

/-- `getDeviceIds`: everything after the hydration check is wrapped in a
`try`/`catch` that logs and returns `[]`. -/
def getDeviceIds (env : StoreEnv) (st : StoreState) (identifier : String) :
    Except String (List (Option Nat) × StoreState) :=
  match st.sessions with
  | none => .error "getDeviceIds: this.sessions not yet cached!"
  | some sess =>
    match env.getConversationId identifier with
    | none => .ok ([], st)
    | some id =>
      let entries := (jvalues sess).filter fun session =>
        session.fromDB.conversationId = id
      match collectDeviceIds env entries st with
      | .error _ => .ok ([], st)
      | .ok (ids, st') => .ok (ids, st')

/-! ## Identity keys -/

/-- `getIdentityRecord`: lookup failures inside the `try` are caught and
become an absent result. -/
def getIdentityRecord (env : StoreEnv) (st : StoreState) (identifier : String) :
    Except String (Option IdentityKeyType) :=
  match st.identityKeys with
  | none => .error "getIdentityRecord: this.identityKeys not yet cached!"
  | some ik =>
    match env.getConversationId identifier with
    | none => .ok none
    | some id =>
      match jget ik id with
      | none => .ok none
      | some entry => .ok (some entry.fromDB)

def TIMESTAMP_THRESHOLD : Nat := 5 * 1000

/-- `isMoreRecentThan timestamp delta` = `timestamp > Date.now() - delta`
(in `ts/util/timestamp.ts`, outside the provided sources; the comparison
is over JS numbers, hence `Int`). -/
def isMoreRecentThan (now timestamp delta : Nat) : Bool :=
  (timestamp : Int) > (now : Int) - (delta : Int)

def isNonBlockingApprovalRequired (env : StoreEnv)
    (identityRecord : IdentityKeyType) : Bool :=
  !identityRecord.firstUse &&
    isMoreRecentThan env.now identityRecord.timestamp TIMESTAMP_THRESHOLD &&
    !identityRecord.nonblockingApproval

/-- `isTrustedForSending` (`constantTimeEqual` decides byte equality). -/
def isTrustedForSending (env : StoreEnv) (publicKey : Bytes)
    (identityRecord : Option IdentityKeyType) : Bool :=
  match identityRecord with
  | none => true
  | some record =>
    match record.publicKey with
    | none => true
    | some existing =>
      if existing ≠ publicKey then false
      else if record.verified = VerifiedUNVERIFIED then false
      else if isNonBlockingApprovalRequired env record then false
      else true

/-- `ourNumber && identifier === ourNumber || ourUuid && identifier === ourUuid`. -/
def isOurIdentifier (env : StoreEnv) (identifier : String) : Bool :=
  (match env.ourNumber with | some n => identifier = n | none => false) ||
  (match env.ourUuid with | some u => identifier = u | none => false)

def isTrustedIdentity (env : StoreEnv) (st : StoreState)
    (encodedAddress : String) (publicKey : Bytes) (direction : Nat) :
    Except String Bool :=
  match st.identityKeys with
  | none => .error "getIdentityRecord: this.identityKeys not yet cached!"
  | some _ =>
    let identifier := firstPartD encodedAddress
    match getIdentityRecord env st identifier with
    | .error e => .error e
    | .ok identityRecord =>
      if isOurIdentifier env identifier then
        match identityRecord with
        | some record =>
          match record.publicKey with
          | some existing => .ok (decide (existing = publicKey))
          | none => .ok true
        | none => .ok true
      else if direction = DirectionSending then
        .ok (isTrustedForSending env publicKey identityRecord)
      else if direction = DirectionReceiving then
        .ok true
      else
        .error "isTrustedIdentity: Unknown direction"

/-- `_saveIdentityKey`: persist, then cache cold. -/
def saveIdentityKeyC (st : StoreState) (data : IdentityKeyType) :
    Except String (Unit × StoreState) :=
  match st.identityKeys with
  | none => .error "_saveIdentityKey: this.identityKeys not yet cached!"
  | some ik =>
    .ok ((),
      { st with
        db := { st.db with identityKeys := jset st.db.identityKeys data.id data },
        identityKeys := some (jset ik data.id (.cold data)) })

/-- A `publicKey` argument that may fail the `instanceof ArrayBuffer`
check: `bin` is an encoded-binary string. -/
inductive BufferArg where
  | ab (bytes : Bytes)
  | bin (s : String)
deriving DecidableEq

/-- `saveIdentity`.  A non-`ArrayBuffer` key is coerced through
`fromEncodedBinaryToArrayBuffer`; a key change demotes `VERIFIED` and
`UNVERIFIED` to `UNVERIFIED`, fires `keychange` (failures caught) and
archives the sibling sessions. -/
def saveIdentity (env : StoreEnv) (st : StoreState) (encodedAddress : String)
    (publicKeyArg : BufferArg) (nonblockingApproval : Bool) :
    Except String (Bool × StoreState) :=
  match st.identityKeys with
  | none => .error "saveIdentity: this.identityKeys not yet cached!"
  | some _ =>
    let publicKey := match publicKeyArg with
      | .ab b => b
      | .bin s => env.fromEncodedBinary s
    let identifier := firstPartD encodedAddress
    match getIdentityRecord env st identifier with
    | .error e => .error e
    | .ok identityRecord =>
      match env.getOrCreate identifier with
      | none => .error "saveIdentity: could not get conversation"
      | some id =>
        match identityRecord with
        | none =>
          match saveIdentityKeyC st
              { id := id, publicKey := some publicKey, firstUse := true,
                timestamp := env.now, verified := VerifiedDEFAULT,
                nonblockingApproval := nonblockingApproval } with
          | .error e => .error e
          | .ok (_, st') => .ok (false, st')
        | some record =>
          match record.publicKey with
          | none =>
            match saveIdentityKeyC st
                { id := id, publicKey := some publicKey, firstUse := true,
                  timestamp := env.now, verified := VerifiedDEFAULT,
                  nonblockingApproval := nonblockingApproval } with
            | .error e => .error e
            | .ok (_, st') => .ok (false, st')
          | some oldpublicKey =>
            if oldpublicKey ≠ publicKey then
              let verifiedStatus :=
                if record.verified = VerifiedVERIFIED ∨
                    record.verified = VerifiedUNVERIFIED then
                  VerifiedUNVERIFIED
                else VerifiedDEFAULT
              match saveIdentityKeyC st
                  { id := id, publicKey := some publicKey, firstUse := false,
                    timestamp := env.now, verified := verifiedStatus,
                    nonblockingApproval := nonblockingApproval } with
              | .error e => .error e
              | .ok (_, st1) =>
                let st2 := trigger st1 (.keychange identifier)
                match archiveSiblingSessions env st2 encodedAddress with
                | .error e => .error e
                | .ok (_, st3) => .ok (true, st3)
            else if isNonBlockingApprovalRequired env record then
              match saveIdentityKeyC st
                  { record with nonblockingApproval := nonblockingApproval } with
              | .error e => .error e
              | .ok (_, st') => .ok (false, st')
            else
              .ok (false, st)

/-! ## Provisioning cipher (`ts/textsecure/ProvisioningCipher.ts`)

The libsignal primitives (`Curve.calculateAgreement`, `HKDF.deriveSecrets`
with null salt and info `"TextSecure Provisioning Message"`,
`crypto.encrypt`/`decrypt`/`calculateMAC`/`verifyMAC`) and the protobuf
codec are external collaborators, abstracted as an environment; the
envelope layout, check ordering and key wiring below are the source's. -/

structure ProvisionMessage where
  identityKeyPrivate : Bytes
  number : Option String
  provisioningCode : Option String
  userAgent : Option String
  readReceipts : Option Bool
  uuid : Option String
  profileKey : Option Bytes
deriving DecidableEq

structure ProvisionEnvelope where
  publicKey : Bytes
  body : Bytes
deriving DecidableEq

structure ProvisionDecryptResult where
  identityKeyPair : KeyPairType
  number : Option String
  uuid : Option String
  provisioningCode : Option String
  userAgent : Option String
  readReceipts : Option Bool
  profileKey : Option Bytes
deriving DecidableEq

inductive PcError where
  | badVersion
  | missingKeyPair
  | macMismatch
  | decryptFailed
  | decodeFailed
deriving DecidableEq

structure CryptoEnv where
  /-- `Curve.calculateAgreement (publicKey, privateKey)`. -/
  calculateAgreement : Bytes → Bytes → Bytes
  /-- `HKDF.deriveSecrets(ecRes, zeros32, info)[0]` — the encryption key. -/
  deriveSecret0 : Bytes → Bytes
  /-- `HKDF.deriveSecrets(ecRes, zeros32, info)[1]` — the MAC key. -/
  deriveSecret1 : Bytes → Bytes
  /-- `crypto.encrypt(key, plaintext, iv)`. -/
  encryptAes : Bytes → Bytes → Bytes → Bytes
  /-- `crypto.decrypt(key, ciphertext, iv)`; may throw. -/
  decryptAes : Bytes → Bytes → Bytes → Except String Bytes
  /-- `crypto.calculateMAC(key, data)` (HMAC-SHA256). -/
  calculateMAC : Bytes → Bytes → Bytes
  /-- `crypto.getRandomBytes(16)` — the IV drawn for this envelope. -/
  randomIV : Bytes
  /-- `ProvisionMessage#toArrayBuffer()`. -/
  encodeMsg : ProvisionMessage → Bytes
  /-- `ProvisionMessage.decode`; may throw. -/
  decodeMsg : Bytes → Except String ProvisionMessage
  /-- `Curve.createKeyPair(privKey)`. -/
  createKeyPair : Bytes → KeyPairType
  /-- `Curve.generateKeyPair()` — the ephemeral pair drawn lazily. -/
  generateKeyPair : KeyPairType

/-- `message.slice(a, b)` on byte arrays (non-negative indices). -/
def sliceL (l : Bytes) (a b : Nat) : Bytes := (l.take b).drop a

/-- `crypto.verifyMAC(data, key, mac, length)`: recompute, check lengths,
constant-time-compare the first `length` bytes. -/
def verifyMAC (env : CryptoEnv) (data key mac : Bytes) (length : Nat) : Bool :=
  let calculated := env.calculateMAC key data
  decide (mac.length = length) && decide (length ≤ calculated.length) &&
    decide (calculated.take length = mac.take length)

/-- `ProvisioningCipherInner.decrypt`.  The cipher state is the optional
ephemeral key pair. -/
def decryptP (env : CryptoEnv) (keyPair : Option KeyPairType)
    (provisionEnvelope : ProvisionEnvelope) :
    Except PcError ProvisionDecryptResult :=
  let masterEphemeral := provisionEnvelope.publicKey
  let message := provisionEnvelope.body
  if message.head? ≠ some 1 then .error .badVersion
  else
    let len := message.length
    let iv := sliceL message 1 (16 + 1)
    let mac := sliceL message (len - 32) len
    let ivAndCiphertext := sliceL message 0 (len - 32)
    let ciphertext := sliceL message (16 + 1) (len - 32)
    match keyPair with
    | none => .error .missingKeyPair
    | some kp =>
      let ecRes := env.calculateAgreement masterEphemeral kp.privKey
      let key0 := env.deriveSecret0 ecRes
      let key1 := env.deriveSecret1 ecRes
      if verifyMAC env ivAndCiphertext key1 mac 32 = false then
        .error .macMismatch
      else
        match env.decryptAes key0 ciphertext iv with
        | .error _ => .error .decryptFailed
        | .ok plaintext =>
          match env.decodeMsg plaintext with
          | .error _ => .error .decodeFailed
          | .ok provisionMessage =>
            let keyPair2 := env.createKeyPair provisionMessage.identityKeyPrivate
            .ok { identityKeyPair := keyPair2,
                  number := provisionMessage.number,
                  provisioningCode := provisionMessage.provisioningCode,
                  userAgent := provisionMessage.userAgent,
                  readReceipts := provisionMessage.readReceipts,
                  uuid := provisionMessage.uuid,
                  profileKey := provisionMessage.profileKey }

/-- `ProvisioningCipherInner.encrypt`: generate the ephemeral pair if
absent, encrypt, MAC `[version ‖ iv ‖ ciphertext]`, concatenate, attach
own ephemeral public key.  Returns the envelope and the (possibly
freshly generated) key pair retained by the cipher. -/
def encryptP (env : CryptoEnv) (keyPair : Option KeyPairType)
    (provisionMessage : ProvisionMessage) (publicKey : Bytes) :
    ProvisionEnvelope × KeyPairType :=
  let kp := keyPair.getD env.generateKeyPair
  let plainText := env.encodeMsg provisionMessage
  let masterEphemeral := publicKey
  let sharedSecret := env.calculateAgreement masterEphemeral kp.privKey
  let key0 := env.deriveSecret0 sharedSecret
  let key1 := env.deriveSecret1 sharedSecret
  let iv := env.randomIV
  let cipherText := env.encryptAes key0 plainText iv
  let versionCipherText := 1 :: (iv ++ cipherText)
  let mac := env.calculateMAC key1 versionCipherText
  let body := versionCipherText ++ mac
  ({ publicKey := kp.pubKey, body := body }, kp)

/-- Flip bit `b` of byte `i` of a buffer. -/
def flipBit (l : Bytes) (i : Nat) (b : Nat) : Bytes :=
  l.set i ((l.getD i 0) ^^^ (2 ^ b))

/-! ## Concrete fixtures used by counterexamples and witnesses -/

def emptyDB : DB := { identityKeys := [], sessions := [], preKeys := [], signedPreKeys := [] }

/-- A small directory: peer `alice` has conversation id `c1`, this
device's own number is `me` with conversation id `cme`; conversation ids
resolve to themselves (as the directory does for known ids). -/
def baseEnv : StoreEnv :=
  { getOrCreate := fun s =>
      if s = "alice" then some "c1"
      else if s = "me" then some "cme"
      else if s = "c1" then some "c1"
      else none,
    getConversationId := fun s =>
      if s = "alice" then some "c1"
      else if s = "me" then some "cme"
      else if s = "c1" then some "c1"
      else none,
    ourNumber := some "me",
    ourUuid := none,
    now := 1000000,
    fromEncodedBinary := fun _ => [7],
    recHasCurrent := fun s => s = "open",
    archiveStr := fun _ => "closed",
    migrateLegacy := fun r _ _ => if r = "legacy" then .ok "open" else .error "bad json" }

/-- Fully hydrated but empty store. -/
def st0 : StoreState :=
  { ourIdentityKey := some { pubKey := [1], privKey := [2] },
    ourRegistrationId := some 42,
    identityKeys := some [],
    sessions := some [],
    preKeys := some [],
    signedPreKeys := some [],
    db := emptyDB,
    events := [],
    nextRef := 0 }

/-! ## C2 — trust of a first-seen key when sending -/

/-- Claim C2 (as stated) is false on the code: with no prior identity
record and `direction = Sending`, `isTrustedForSending` returns `true`
("No previous record, returning true..."), not `false`.  Concretely:
peer `bob` has no record (the directory does not even know it), yet the
key is trusted for sending. -/
theorem claim_C2_counterexample :
    isTrustedIdentity baseEnv st0 "bob.1" [9] DirectionSending = .ok true := by
  decide

/-- C2 amended: for every address that is not this device's own
identifier and has no identity record, `isTrustedIdentity` with
`direction = Sending` returns trusted (`true`) — trust-on-first-use. -/
theorem claim_C2_amended (env : StoreEnv) (st : StoreState)
    (ik : JMap String (CacheEntry IdentityKeyType PublicKeyH))
    (addr : String) (key : Bytes)
    (hik : st.identityKeys = some ik)
    (hnotOur : isOurIdentifier env (firstPartD addr) = false)
    (hrec : getIdentityRecord env st (firstPartD addr) = .ok none) :
    isTrustedIdentity env st addr key DirectionSending = .ok true := by
  simp only [isTrustedIdentity, hik, hrec, hnotOur]
  simp [isTrustedForSending]

/-- Witness: the amended C2 theorem applies to a concrete peer with no
record. -/
theorem claim_C2_witness :
    isTrustedIdentity baseEnv st0 "bob.1" [9] DirectionSending = .ok true :=
  claim_C2_amended baseEnv st0 [] "bob.1" [9] rfl (by decide) (by decide)

/-! ## C3 — receiving is always trusted -/

/-- Store state in which this device's own identifier `me` has a stored
identity record with key `[1]`. -/
def stOwnRec : StoreState :=
  { st0 with
    identityKeys := some [("cme", .cold
      { id := "cme", publicKey := some [1], firstUse := true,
        timestamp := 5, verified := 0, nonblockingApproval := false })] }

/-- Claim C3 (as stated, "for every encoded address") is false: when the
address is this device's *own* identifier, `isTrustedIdentity` compares
against the stored key before ever looking at the direction, and returns
`false` for a mismatched key even with `direction = Receiving`. -/
theorem claim_C3_counterexample :
    isTrustedIdentity baseEnv stOwnRec "me.1" [2] DirectionReceiving = .ok false := by
  decide

/-- C3 amended: for every encoded address that is *not* this device's own
identifier, `isTrustedIdentity` with `direction = Receiving` returns
`true` regardless of any stored identity record. -/
theorem claim_C3_amended (env : StoreEnv) (st : StoreState)
    (ik : JMap String (CacheEntry IdentityKeyType PublicKeyH))
    (addr : String) (key : Bytes)
    (hik : st.identityKeys = some ik)
    (hnotOur : isOurIdentifier env (firstPartD addr) = false) :
    isTrustedIdentity env st addr key DirectionReceiving = .ok true := by
  obtain ⟨o, ho⟩ : ∃ o,
      getIdentityRecord env st (firstPartD addr) = .ok o := by
    rcases hc : env.getConversationId (firstPartD addr) with _ | cid
    · exact ⟨none, by simp [getIdentityRecord, hik, hc]⟩
    · rcases hj : jget ik cid with _ | entry
      · exact ⟨none, by simp [getIdentityRecord, hik, hc, hj]⟩
      · exact ⟨some entry.fromDB, by simp [getIdentityRecord, hik, hc, hj]⟩
  simp only [isTrustedIdentity, hik, ho, hnotOur]
  simp [DirectionSending, DirectionReceiving]

/-- Identity record for peer `alice` (conversation `c1`) with key `[1]`. -/
def recAlice : IdentityKeyType :=
  { id := "c1", publicKey := some [1], firstUse := true,
    timestamp := 5, verified := 0, nonblockingApproval := false }

def stPeerRec : StoreState := { st0 with identityKeys := some [("c1", .cold recAlice)] }

/-- Witness: the amended C3 theorem applies to a peer with a stored
record whose key differs from the candidate. -/
theorem claim_C3_witness :
    isTrustedIdentity baseEnv stPeerRec "alice.1" [2] DirectionReceiving = .ok true :=
  claim_C3_amended baseEnv stPeerRec [("c1", .cold recAlice)]
    "alice.1" [2] rfl (by decide)

/-! ## C7 — hydration idempotence -/

/-- C7: a second load of the same id returns exactly the result and state
of the first — for a cold entry the first load hydrates and upgrades the
cache in place, and the second load hands back the very object the first
constructed (same allocation `ref`), never a reconstruction, for prekeys,
signed prekeys and sessions alike. -/
theorem claim_C7_hydration_idempotence :
    (∀ (st : StoreState) (keyId : Nat) (r : Option PreKeyRecord) (st1 : StoreState),
       loadPreKey st keyId = .ok (r, st1) → loadPreKey st1 keyId = .ok (r, st1)) ∧
    (∀ (st : StoreState) (keyId : Nat) (r : Option SignedPreKeyRecord) (st1 : StoreState),
       loadSignedPreKey st keyId = .ok (r, st1) → loadSignedPreKey st1 keyId = .ok (r, st1)) ∧
    (∀ (env : StoreEnv) (st : StoreState) (addr : String) (r : Option SessionRecord)
       (st1 : StoreState),
       loadSession env st addr = .ok (r, st1) → loadSession env st1 addr = .ok (r, st1)) := by
  refine ⟨?_, ?_, ?_⟩
  · intro st keyId r st1 h
    rcases hpk : st.preKeys with _ | pk
    · simp [loadPreKey, hpk] at h
    · rcases hj : jget pk keyId with _ | entry
      · simp [loadPreKey, hpk, hj] at h
        obtain ⟨rfl, rfl⟩ := h
        simp [loadPreKey, hpk, hj]
      · cases entry with
        | hydrated fromDB item =>
            simp [loadPreKey, hpk, hj] at h
            obtain ⟨rfl, rfl⟩ := h
            simp [loadPreKey, hpk, hj]
        | cold fromDB =>
            simp [loadPreKey, hpk, hj] at h
            obtain ⟨rfl, rfl⟩ := h
            simp [loadPreKey, jget_jset_self]
  · intro st keyId r st1 h
    rcases hpk : st.signedPreKeys with _ | pk
    · simp [loadSignedPreKey, hpk] at h
    · rcases hj : jget pk keyId with _ | entry
      · simp [loadSignedPreKey, hpk, hj] at h
        obtain ⟨rfl, rfl⟩ := h
        simp [loadSignedPreKey, hpk, hj]
      · cases entry with
        | hydrated fromDB item =>
            simp [loadSignedPreKey, hpk, hj] at h
            obtain ⟨rfl, rfl⟩ := h
            simp [loadSignedPreKey, hpk, hj]
        | cold fromDB =>
            simp [loadSignedPreKey, hpk, hj] at h
            obtain ⟨rfl, rfl⟩ := h
            simp [loadSignedPreKey, jget_jset_self]
  · intro env st addr r st1 h
    rcases hs : st.sessions with _ | sess
    · simp [loadSession, hs] at h
    · rcases hn : normalizeEncodedAddress env addr with e | id
      · simp [loadSession, hs, hn] at h
        obtain ⟨rfl, rfl⟩ := h
        simp [loadSession, hs, hn]
      · rcases hj : jget sess id with _ | entry
        · simp [loadSession, hs, hn, hj] at h
          obtain ⟨rfl, rfl⟩ := h
          simp [loadSession, hs, hn, hj]
        · cases entry with
          | hydrated fromDB item =>
              simp [loadSession, hs, hn, hj] at h
              obtain ⟨rfl, rfl⟩ := h
              simp [loadSession, hs, hn, hj]
          | cold fromDB =>
              rcases hm : maybeMigrateSession env st fromDB with e | pair
              · simp [loadSession, hs, hn, hj, hm] at h
                obtain ⟨rfl, rfl⟩ := h
                simp [loadSession, hs, hn, hj, hm]
              · obtain ⟨item, stm⟩ := pair
                simp [loadSession, hs, hn, hj, hm] at h
                obtain ⟨rfl, rfl⟩ := h
                simp [loadSession, hn, jget_jset_self]

def preKeyDB5 : PreKeyType := { id := 5, publicKey := [1], privateKey := [2] }
def stPre : StoreState := { st0 with preKeys := some [(5, .cold preKeyDB5)] }
def preRec5 : PreKeyRecord := { ref := 0, id := 5, publicKey := [1], privateKey := [2] }
def stPre1 : StoreState :=
  { st0 with nextRef := 1, preKeys := some [(5, .hydrated preKeyDB5 preRec5)] }

def spkDB3 : SignedPreKeyType :=
  { id := 3, publicKey := [1], privateKey := [2], created_at := 9, confirmed := false }
def stSpk : StoreState := { st0 with signedPreKeys := some [(3, .cold spkDB3)] }
def spkRec3 : SignedPreKeyRecord :=
  { ref := 0, id := 3, createdAt := 9, pubKey := [1], privKey := [2], signature := [] }
def stSpk1 : StoreState :=
  { st0 with nextRef := 1, signedPreKeys := some [(3, .hydrated spkDB3 spkRec3)] }

def sessDB : SessionType :=
  { id := "c1.1", version := some 2, conversationId := "c1", deviceId := some 1,
    record := "open" }
def stSess : StoreState := { st0 with sessions := some [("c1.1", .cold sessDB)] }
def sessRec : SessionRecord := { ref := 0, contents := "open" }
def stSess1 : StoreState :=
  { st0 with nextRef := 1, sessions := some [("c1.1", .hydrated sessDB sessRec)] }

/-- Witness: hydration idempotence applied to concrete cold entries of all
three kinds (the first load's result is computed by `decide`). -/
theorem claim_C7_witness :
    loadPreKey stPre1 5 = .ok (some preRec5, stPre1) ∧
    loadSignedPreKey stSpk1 3 = .ok (some spkRec3, stSpk1) ∧
    loadSession baseEnv stSess1 "alice.1" = .ok (some sessRec, stSess1) :=
  ⟨claim_C7_hydration_idempotence.1 stPre 5 (some preRec5) stPre1 (by decide),
   claim_C7_hydration_idempotence.2.1 stSpk 3 (some spkRec3) stSpk1 (by decide),
   claim_C7_hydration_idempotence.2.2 baseEnv stSess "alice.1" (some sessRec) stSess1
     (by decide)⟩

/-! ## C8 — storeSession always writes version 2 -/

/-- C8: every successful `storeSession` writes the session at its
normalized id in *both* the cache and the Persistence Gateway with
`version = 2` — never in the legacy (version-absent) form. -/
theorem claim_C8_one_way_format (env : StoreEnv) (st : StoreState)
    (addr : String) (record : SessionRecord) (u : Unit) (st' : StoreState)
    (h : storeSession env st addr record = .ok (u, st')) :
    ∃ id sess' fromDB,
      normalizeEncodedAddress env addr = .ok id ∧
      st'.sessions = some sess' ∧
      jget sess' id = some (.hydrated fromDB record) ∧
      fromDB.version = some 2 ∧
      jget st'.db.sessions id = some fromDB := by
  rcases hs : st.sessions with _ | sess
  · simp [storeSession, hs] at h
  · rcases hn : normalizeEncodedAddress env addr with e | nid
    · simp [storeSession, hs, hn] at h
    · simp only [storeSession, hs, hn] at h
      rw [Except.ok.injEq, Prod.mk.injEq] at h
      obtain ⟨-, hst⟩ := h
      subst hst
      refine ⟨nid, _, _, rfl, rfl, jget_jset_self _ _ _, rfl, jget_jset_self _ _ _⟩

def sessFromDBW : SessionType :=
  { id := "c1.1", version := some 2, conversationId := "c1", deviceId := some 1,
    record := "open" }

def storeSessionC8res : StoreState :=
  { st0 with
    db := { emptyDB with sessions := [("c1.1", sessFromDBW)] },
    sessions := some [("c1.1", .hydrated sessFromDBW sessRec)] }

/-- Witness: a concrete `storeSession` run. -/
theorem claim_C8_witness :
    ∃ id sess' fromDB,
      normalizeEncodedAddress baseEnv "alice.1" = .ok id ∧
      (storeSessionC8res).sessions = some sess' ∧
      jget sess' id = some (.hydrated fromDB sessRec) ∧
      fromDB.version = some 2 ∧
      jget (storeSessionC8res).db.sessions id = some fromDB :=
  claim_C8_one_way_format baseEnv st0 "alice.1" sessRec () storeSessionC8res (by decide)

/-! ## C9 — prekey single-use and idempotent removal -/

/-- C9: once the prekey cache is hydrated, `removePreKey` succeeds, a
subsequent `loadPreKey` of the same id resolves to an absent value (not
an error), and a second `removePreKey` also completes without error. -/
theorem claim_C9_prekey_removal (st : StoreState)
    (pk : JMap Nat (CacheEntry PreKeyType PreKeyRecord)) (keyId : Nat)
    (h : st.preKeys = some pk) :
    ∃ st1, removePreKey st keyId = .ok ((), st1) ∧
      loadPreKey st1 keyId = .ok (none, st1) ∧
      ∃ st2, removePreKey st1 keyId = .ok ((), st2) := by
  set st1 : StoreState :=
    { st with events := st.events ++ [.removePreKeyEvent],
              preKeys := some (jdel pk keyId),
              db := { st.db with preKeys := jdel st.db.preKeys keyId } } with hst1
  have h1 : removePreKey st keyId = .ok ((), st1) := by
    simp [removePreKey, trigger, h, hst1]
  have h2 : loadPreKey st1 keyId = .ok (none, st1) := by
    simp [loadPreKey, hst1, jget_jdel_self]
  have h3 : removePreKey st1 keyId = .ok ((),
      { st1 with events := st1.events ++ [.removePreKeyEvent],
                 preKeys := some (jdel (jdel pk keyId) keyId),
                 db := { st1.db with preKeys := jdel st1.db.preKeys keyId } }) := by
    simp [removePreKey, trigger, hst1]
  exact ⟨st1, h1, h2, _, h3⟩

/-- Witness: concrete removal of prekey 5 (its cache holds exactly id 5). -/
theorem claim_C9_witness :
    ∃ st1, removePreKey stPre 5 = .ok ((), st1) ∧
      loadPreKey st1 5 = .ok (none, st1) ∧
      ∃ st2, removePreKey st1 5 = .ok ((), st2) :=
  claim_C9_prekey_removal stPre [(5, .cold preKeyDB5)] 5 rfl

/-! ## C10 — getDeviceIds never rejects once hydrated -/

/-- C10: with the sessions cache hydrated, `getDeviceIds` always resolves
(never rejects); when the identifier has no conversation id, or any
matching entry fails to migrate or deserialize, it resolves to `[]` with
the state untouched. -/
theorem claim_C10_getDeviceIds_total (env : StoreEnv) (st : StoreState)
    (sess : JMap String (CacheEntry SessionType SessionRecord)) (identifier : String)
    (h : st.sessions = some sess) :
    (∃ r, getDeviceIds env st identifier = .ok r) ∧
    (env.getConversationId identifier = none →
       getDeviceIds env st identifier = .ok ([], st)) ∧
    (∀ cid err, env.getConversationId identifier = some cid →
       collectDeviceIds env
         ((jvalues sess).filter fun session => session.fromDB.conversationId = cid) st =
         .error err →
       getDeviceIds env st identifier = .ok ([], st)) := by
  refine ⟨?_, ?_, ?_⟩
  · rcases hc : env.getConversationId identifier with _ | cid
    · exact ⟨([], st), by simp [getDeviceIds, h, hc]⟩
    · rcases hcol : collectDeviceIds env
          ((jvalues sess).filter fun session => session.fromDB.conversationId = cid) st
          with e | pr
      · exact ⟨([], st), by simp [getDeviceIds, h, hc, hcol]⟩
      · exact ⟨pr, by simp [getDeviceIds, h, hc, hcol]⟩
  · intro hc
    simp [getDeviceIds, h, hc]
  · intro cid err hc hcol
    simp [getDeviceIds, h, hc, hcol]

/-- Session with an unknown explicit version (migration throws). -/
def sessBadVer : SessionType :=
  { id := "c1.1", version := some 3, conversationId := "c1", deviceId := some 1,
    record := "x" }
def stBadVer : StoreState := { st0 with sessions := some [("c1.1", .cold sessBadVer)] }

/-- Witness: an unresolvable identifier and a session with an unknown
version both make `getDeviceIds` resolve to the empty array. -/
theorem claim_C10_witness :
    (∃ r, getDeviceIds baseEnv stBadVer "alice" = .ok r) ∧
    getDeviceIds baseEnv st0 "bob" = .ok ([], st0) ∧
    getDeviceIds baseEnv stBadVer "alice" = .ok ([], stBadVer) :=
  ⟨(claim_C10_getDeviceIds_total baseEnv stBadVer [("c1.1", .cold sessBadVer)] "alice"
      rfl).1,
   (claim_C10_getDeviceIds_total baseEnv st0 [] "bob" rfl).2.1 (by decide),
   (claim_C10_getDeviceIds_total baseEnv stBadVer [("c1.1", .cold sessBadVer)] "alice"
      rfl).2.2 "c1" "_maybeMigrateSession: Unknown session version type!"
      (by decide) (by decide)⟩

/-! ## Provisioning decrypt: check-order lemmas -/

/-- Continuation of `decrypt` after the version, key-pair and MAC checks:
decrypt with `secret[0]` and the extracted iv, then parse. -/
def decTail (env : CryptoEnv) (kpv : KeyPairType) (pe : ProvisionEnvelope) :
    Except PcError ProvisionDecryptResult :=
  let len := pe.body.length
  let ecRes := env.calculateAgreement pe.publicKey kpv.privKey
  match env.decryptAes (env.deriveSecret0 ecRes) (sliceL pe.body (16 + 1) (len - 32))
      (sliceL pe.body 1 (16 + 1)) with
  | .error _ => .error .decryptFailed
  | .ok plaintext =>
    match env.decodeMsg plaintext with
    | .error _ => .error .decodeFailed
    | .ok pm =>
        .ok { identityKeyPair := env.createKeyPair pm.identityKeyPrivate,
              number := pm.number, provisioningCode := pm.provisioningCode,
              userAgent := pm.userAgent, readReceipts := pm.readReceipts,
              uuid := pm.uuid, profileKey := pm.profileKey }

theorem decryptP_bad_version (env : CryptoEnv) (kp : Option KeyPairType)
    (pe : ProvisionEnvelope) (hv : pe.body.head? ≠ some 1) :
    decryptP env kp pe = .error .badVersion := by
  simp [decryptP, hv]

theorem decryptP_missing_key (env : CryptoEnv) (pe : ProvisionEnvelope)
    (hv : pe.body.head? = some 1) :
    decryptP env none pe = .error .missingKeyPair := by
  simp [decryptP, hv]

theorem decryptP_mac_fail (env : CryptoEnv) (kp : KeyPairType)
    (pe : ProvisionEnvelope) (hv : pe.body.head? = some 1)
    (hmac : verifyMAC env (sliceL pe.body 0 (pe.body.length - 32))
        (env.deriveSecret1 (env.calculateAgreement pe.publicKey kp.privKey))
        (sliceL pe.body (pe.body.length - 32) pe.body.length) 32 = false) :
    decryptP env (some kp) pe = .error .macMismatch := by
  simp [decryptP, hv, hmac]

theorem decryptP_mac_ok (env : CryptoEnv) (kp : KeyPairType)
    (pe : ProvisionEnvelope) (hv : pe.body.head? = some 1)
    (hmac : verifyMAC env (sliceL pe.body 0 (pe.body.length - 32))
        (env.deriveSecret1 (env.calculateAgreement pe.publicKey kp.privKey))
        (sliceL pe.body (pe.body.length - 32) pe.body.length) 32 = true) :
    decryptP env (some kp) pe = decTail env kp pe := by
  simp [decryptP, decTail, hv, hmac]

/-! ## C5 — decrypt check ordering -/

/-- C5: `decrypt` fails with `BadVersion` when the first body byte is not
1; otherwise with `MissingKeyPair` when no ephemeral key pair exists;
otherwise it verifies the MAC over `[version‖iv‖ciphertext]` (the body
minus its last 32 bytes) with the second derived secret and fails with
`MacMismatch` on mismatch *before any decryption* — the result is
`MacMismatch` for every possible decryption and parsing primitive, and
only when all three checks pass does the result come from
decrypt-then-parse (`decTail`). -/
theorem claim_C5_check_order (env : CryptoEnv) (kp : Option KeyPairType)
    (pe : ProvisionEnvelope) :
    (pe.body.head? ≠ some 1 → decryptP env kp pe = .error .badVersion) ∧
    (pe.body.head? = some 1 → kp = none → decryptP env kp pe = .error .missingKeyPair) ∧
    (∀ kpv, pe.body.head? = some 1 → kp = some kpv →
      verifyMAC env (sliceL pe.body 0 (pe.body.length - 32))
        (env.deriveSecret1 (env.calculateAgreement pe.publicKey kpv.privKey))
        (sliceL pe.body (pe.body.length - 32) pe.body.length) 32 = false →
      ∀ decFn decodeFn,
        decryptP { env with decryptAes := decFn, decodeMsg := decodeFn } kp pe =
          .error .macMismatch) ∧
    (∀ kpv, pe.body.head? = some 1 → kp = some kpv →
      verifyMAC env (sliceL pe.body 0 (pe.body.length - 32))
        (env.deriveSecret1 (env.calculateAgreement pe.publicKey kpv.privKey))
        (sliceL pe.body (pe.body.length - 32) pe.body.length) 32 = true →
      decryptP env kp pe = decTail env kpv pe) := by
  refine ⟨?_, ?_, ?_, ?_⟩
  · intro hv
    exact decryptP_bad_version env kp pe hv
  · intro hv hkp
    subst hkp
    exact decryptP_missing_key env pe hv
  · intro kpv hv hkp hmac decFn decodeFn
    subst hkp
    exact decryptP_mac_fail _ kpv pe hv hmac
  · intro kpv hv hkp hmac
    subst hkp
    exact decryptP_mac_ok env kpv pe hv hmac

/-! Toy instantiation of the cryptographic collaborators, used by the
provisioning witnesses: the "cipher" is the identity, the "MAC" is the
zero-padded 32-byte truncation of message-then-key, the ECDH "agreement"
is concatenation (symmetric when both sides use the same pair). -/

def mW : ProvisionMessage :=
  { identityKeyPrivate := [5], number := some "33", provisioningCode := some "77",
    userAgent := none, readReceipts := none, uuid := none, profileKey := none }

def cEnvP : CryptoEnv :=
  { calculateAgreement := fun pub priv => pub ++ priv,
    deriveSecret0 := fun e => 0 :: e,
    deriveSecret1 := fun e => 1 :: e,
    encryptAes := fun _ p _ => p,
    decryptAes := fun _ c _ => .ok c,
    calculateMAC := fun k d => (d ++ k ++ List.replicate 32 0).take 32,
    randomIV := List.replicate 16 0,
    encodeMsg := fun _ => [9],
    decodeMsg := fun bs => if bs = [9] then .ok mW else .error "bad",
    createKeyPair := fun p => { pubKey := p, privKey := p },
    generateKeyPair := { pubKey := [3], privKey := [4] } }

def kpW : KeyPairType := { pubKey := [1], privKey := [2] }

def peBad : ProvisionEnvelope := { publicKey := [1], body := [2] }
def peV1 : ProvisionEnvelope := { publicKey := [1], body := 1 :: List.replicate 48 0 }
def peOkBody : Bytes :=
  (1 :: (List.replicate 16 0 ++ [9])) ++
    cEnvP.calculateMAC (1 :: ([1] ++ [2])) (1 :: (List.replicate 16 0 ++ [9]))
def peOk : ProvisionEnvelope := { publicKey := [1], body := peOkBody }

def idDecrypt : Bytes → Bytes → Bytes → Except String Bytes := fun _ c _ => Except.ok c

/-- Witness: each of the four branches of the check-order theorem fires on
a concrete envelope. -/
theorem claim_C5_witness :
    decryptP cEnvP (some kpW) peBad = .error .badVersion ∧
    decryptP cEnvP none peV1 = .error .missingKeyPair ∧
    decryptP { cEnvP with decryptAes := idDecrypt, decodeMsg := cEnvP.decodeMsg }
      (some kpW) peV1 = .error .macMismatch ∧
    decryptP cEnvP (some kpW) peOk = decTail cEnvP kpW peOk :=
  ⟨(claim_C5_check_order cEnvP (some kpW) peBad).1 (by decide),
   (claim_C5_check_order cEnvP none peV1).2.1 (by decide) rfl,
   (claim_C5_check_order cEnvP (some kpW) peV1).2.2.1 kpW (by decide) rfl (by decide)
     idDecrypt cEnvP.decodeMsg,
   (claim_C5_check_order cEnvP (some kpW) peOk).2.2.2 kpW (by decide) rfl (by decide)⟩

/-! ## C4 — provisioning round trip and tamper detection -/

theorem sliceL_cons_one (a : Nat) (l : Bytes) (n : Nat) :
    sliceL (a :: l) 1 (n + 1) = l.take n := by
  simp [sliceL, List.take_succ_cons]

/-- C4: with paired ephemeral key pairs (`hDH` is ECDH agreement
symmetry), `decrypt (encrypt m kpB.pubKey)` recovers the message fields —
the number, provisioning code and the identity key pair reconstructed
from the embedded private key; and flipping any single bit at a body
position `i ≥ 17` (the ciphertext or MAC region) makes `decrypt` fail
with `MacMismatch`, returning no plaintext.  `hflip` is the MAC
collision-freedom assumption for the tampered envelope: the stored MAC of
the flipped body no longer matches the recomputed one. -/
theorem claim_C4_provisioning_roundtrip (env : CryptoEnv) (kpA kpB : KeyPairType)
    (m : ProvisionMessage) (i b : Nat)
    (hDH : env.calculateAgreement kpB.pubKey kpA.privKey =
           env.calculateAgreement kpA.pubKey kpB.privKey)
    (hIV : env.randomIV.length = 16)
    (hMacLen : ∀ k d, (env.calculateMAC k d).length = 32)
    (hDec : ∀ k p iv, env.decryptAes k (env.encryptAes k p iv) iv = .ok p)
    (hCode : env.decodeMsg (env.encodeMsg m) = .ok m)
    (hi : 17 ≤ i)
    (hilen : i < (encryptP env (some kpA) m kpB.pubKey).1.body.length)
    (hflip :
      sliceL (flipBit (encryptP env (some kpA) m kpB.pubKey).1.body i b)
          ((flipBit (encryptP env (some kpA) m kpB.pubKey).1.body i b).length - 32)
          (flipBit (encryptP env (some kpA) m kpB.pubKey).1.body i b).length ≠
        (env.calculateMAC
            (env.deriveSecret1 (env.calculateAgreement kpA.pubKey kpB.privKey))
            (sliceL (flipBit (encryptP env (some kpA) m kpB.pubKey).1.body i b) 0
              ((flipBit (encryptP env (some kpA) m kpB.pubKey).1.body i b).length -
                32))).take 32) :
    decryptP env (some kpB) (encryptP env (some kpA) m kpB.pubKey).1 =
      .ok { identityKeyPair := env.createKeyPair m.identityKeyPrivate,
            number := m.number, uuid := m.uuid,
            provisioningCode := m.provisioningCode, userAgent := m.userAgent,
            readReceipts := m.readReceipts, profileKey := m.profileKey } ∧
    decryptP env (some kpB)
        { publicKey := (encryptP env (some kpA) m kpB.pubKey).1.publicKey,
          body := flipBit (encryptP env (some kpA) m kpB.pubKey).1.body i b } =
      .error .macMismatch := by
  set iv := env.randomIV with hiv_def
  set ec := env.calculateAgreement kpB.pubKey kpA.privKey with hec
  set k0 := env.deriveSecret0 ec with hk0
  set k1 := env.deriveSecret1 ec with hk1
  set pt := env.encodeMsg m with hpt
  set ct := env.encryptAes k0 pt iv with hct
  set mac := env.calculateMAC k1 (1 :: (iv ++ ct)) with hmac_def
  have hE : (encryptP env (some kpA) m kpB.pubKey).1 =
      { publicKey := kpA.pubKey, body := (1 :: (iv ++ ct)) ++ mac } := rfl
  have hmacl : mac.length = 32 := by rw [hmac_def]; exact hMacLen _ _
  have hkey : env.calculateAgreement kpA.pubKey kpB.privKey = ec := by
    rw [hec]; exact hDH.symm
  have hbody : ((1 :: (iv ++ ct)) ++ mac : Bytes) = 1 :: ((iv ++ ct) ++ mac) :=
    List.cons_append _ _ _
  have hlen : ((1 :: (iv ++ ct)) ++ mac : Bytes).length = ct.length + 49 := by
    simp [hIV, hmacl]
    omega
  have hpre_len : ((1 :: (iv ++ ct)) : Bytes).length = ct.length + 49 - 32 := by
    simp [hIV]
    omega
  have hsl_iv : sliceL ((1 :: (iv ++ ct)) ++ mac) 1 (16 + 1) = iv := by
    have h1 : ((1 :: (iv ++ ct)) ++ mac : Bytes) = 1 :: (iv ++ (ct ++ mac)) := by simp
    rw [h1, sliceL_cons_one]
    exact List.take_left' hIV
  have hsl_mac : sliceL ((1 :: (iv ++ ct)) ++ mac) (ct.length + 49 - 32)
      (ct.length + 49) = mac := by
    unfold sliceL
    rw [List.take_of_length_le (le_of_eq hlen)]
    exact List.drop_left' hpre_len
  have hsl_data : sliceL ((1 :: (iv ++ ct)) ++ mac) 0 (ct.length + 49 - 32) =
      1 :: (iv ++ ct) := by
    unfold sliceL
    rw [List.take_left' hpre_len]
    rfl
  have hsl_ct : sliceL ((1 :: (iv ++ ct)) ++ mac) (16 + 1) (ct.length + 49 - 32) =
      ct := by
    unfold sliceL
    rw [List.take_left' hpre_len, List.drop_succ_cons]
    exact List.drop_left' hIV
  have hverTrue : verifyMAC env (1 :: (iv ++ ct)) k1 mac 32 = true := by
    have hcalc : env.calculateMAC k1 (1 :: (iv ++ ct)) = mac := hmac_def.symm
    simp [verifyMAC, hcalc, hmacl]
  constructor
  · rw [hE]
    have hv : (({ publicKey := kpA.pubKey, body := (1 :: (iv ++ ct)) ++ mac } :
        ProvisionEnvelope)).body.head? = some 1 := rfl
    rw [decryptP_mac_ok env kpB _ hv ?hm]
    case hm =>
      show verifyMAC env (sliceL ((1 :: (iv ++ ct)) ++ mac) 0
          (((1 :: (iv ++ ct)) ++ mac : Bytes).length - 32))
          (env.deriveSecret1 (env.calculateAgreement kpA.pubKey kpB.privKey))
          (sliceL ((1 :: (iv ++ ct)) ++ mac)
            (((1 :: (iv ++ ct)) ++ mac : Bytes).length - 32)
            ((1 :: (iv ++ ct)) ++ mac : Bytes).length) 32 = true
      rw [hlen, hkey, ← hk1, hsl_data, hsl_mac]
      exact hverTrue
    show decTail env kpB { publicKey := kpA.pubKey, body := (1 :: (iv ++ ct)) ++ mac } =
      _
    simp only [decTail]
    rw [hlen, hkey, ← hk0, hsl_ct, hsl_iv, hct]
    rw [hDec k0 pt iv]
    simp [hCode]
  · rw [hE] at hflip hilen ⊢
    simp only [List.cons_append, List.append_assoc] at hflip
    obtain ⟨n, rfl⟩ : ∃ n, i = n + 1 := ⟨i - 1, by omega⟩
    apply decryptP_mac_fail
    · show (flipBit ((1 :: (iv ++ ct)) ++ mac) (n + 1) b).head? = some 1
      rw [hbody]
      unfold flipBit
      rw [List.set_cons_succ]
      rfl
    · have hfl_len : (flipBit ((1 :: (iv ++ ct)) ++ mac) (n + 1) b).length =
          ct.length + 49 := by
        unfold flipBit
        rw [List.length_set, hlen]
      have hm'len : (sliceL (flipBit ((1 :: (iv ++ ct)) ++ mac) (n + 1) b)
          ((flipBit ((1 :: (iv ++ ct)) ++ mac) (n + 1) b).length - 32)
          (flipBit ((1 :: (iv ++ ct)) ++ mac) (n + 1) b).length).length = 32 := by
        unfold sliceL
        rw [List.take_length, List.length_drop, hfl_len]
        omega
      show verifyMAC env _ _ _ 32 = false
      unfold verifyMAC
      have hm'take : (sliceL (flipBit ((1 :: (iv ++ ct)) ++ mac) (n + 1) b)
          ((flipBit ((1 :: (iv ++ ct)) ++ mac) (n + 1) b).length - 32)
          (flipBit ((1 :: (iv ++ ct)) ++ mac) (n + 1) b).length).take 32 =
          sliceL (flipBit ((1 :: (iv ++ ct)) ++ mac) (n + 1) b)
          ((flipBit ((1 :: (iv ++ ct)) ++ mac) (n + 1) b).length - 32)
          (flipBit ((1 :: (iv ++ ct)) ++ mac) (n + 1) b).length :=
        List.take_of_length_le (by rw [hm'len])
      simp only [hm'len, hMacLen, hm'take]
      simp [Bool.and_eq_false_iff]
      intro h
      exact absurd h.symm hflip

/-- Witness: the round trip and a concrete ciphertext-bit flip under the
toy primitives (`kpA = kpB = kpW`, flip of bit 0 of byte 17, the first
ciphertext byte). -/
theorem claim_C4_witness :
    decryptP cEnvP (some kpW) (encryptP cEnvP (some kpW) mW kpW.pubKey).1 =
      .ok { identityKeyPair := cEnvP.createKeyPair mW.identityKeyPrivate,
            number := mW.number, uuid := mW.uuid,
            provisioningCode := mW.provisioningCode, userAgent := mW.userAgent,
            readReceipts := mW.readReceipts, profileKey := mW.profileKey } ∧
    decryptP cEnvP (some kpW)
        { publicKey := (encryptP cEnvP (some kpW) mW kpW.pubKey).1.publicKey,
          body := flipBit (encryptP cEnvP (some kpW) mW kpW.pubKey).1.body 17 0 } =
      .error .macMismatch :=
  claim_C4_provisioning_roundtrip cEnvP kpW kpW mW 17 0 rfl (by decide)
    (by
      intro k d
      show ((d ++ k ++ List.replicate 32 0).take 32).length = 32
      simp [List.length_take]
      omega)
    (fun k p iv => rfl) (by decide) (by decide) (by decide) (by decide)

/-! ## C6 — error propagation -/

/-- Identity record created by the coercing `saveIdentity` run below. -/
def recCoerce : IdentityKeyType :=
  { id := "c1", publicKey := some [7], firstUse := true, timestamp := 1000000,
    verified := 0, nonblockingApproval := false }

def stCoerce : StoreState :=
  { st0 with
    identityKeys := some [("c1", .cold recCoerce)],
    db := { emptyDB with identityKeys := [("c1", recCoerce)] } }

/-- Claim C6 (as stated) is false on the code: (1) a peer-lookup failure
inside `loadSession` is caught and yields an absent value (`bob` is
unknown to the directory, yet no error is propagated); (2) an
unrecognized explicit session version makes `_maybeMigrateSession` throw,
but `loadSession` catches it and also resolves absent; (3) `saveIdentity`
does not reject a non-`ArrayBuffer` key — it coerces it through
`fromEncodedBinaryToArrayBuffer` and saves successfully. -/
theorem claim_C6_counterexample :
    loadSession baseEnv st0 "bob.1" = .ok (none, st0) ∧
    loadSession baseEnv stBadVer "alice.1" = .ok (none, stBadVer) ∧
    saveIdentity baseEnv st0 "alice.1" (.bin "zz") false = .ok (false, stCoerce) := by
  refine ⟨by decide, by decide, by decide⟩

/-- C6 amended: normalization failures and unknown-version migration
failures inside `loadSession` are *caught*: the call resolves to an
absent value with the state unchanged (the unknown version is still a
hard error of `_maybeMigrateSession` itself); and `saveIdentity` treats a
non-`ArrayBuffer` key by coercing it through
`fromEncodedBinaryToArrayBuffer`, behaving exactly as if the coerced
bytes had been passed. -/
theorem claim_C6_amended :
    (∀ (env : StoreEnv) (st : StoreState) (addr : String)
       (sess : JMap String (CacheEntry SessionType SessionRecord)) (e : String),
       st.sessions = some sess → normalizeEncodedAddress env addr = .error e →
       loadSession env st addr = .ok (none, st)) ∧
    (∀ (env : StoreEnv) (st : StoreState) (addr nid : String)
       (sess : JMap String (CacheEntry SessionType SessionRecord))
       (fromDB : SessionType) (v : Nat),
       st.sessions = some sess → normalizeEncodedAddress env addr = .ok nid →
       jget sess nid = some (.cold fromDB) → fromDB.version = some v → v ≠ 2 →
       maybeMigrateSession env st fromDB =
         .error "_maybeMigrateSession: Unknown session version type!" ∧
       loadSession env st addr = .ok (none, st)) ∧
    (∀ (env : StoreEnv) (st : StoreState) (addr s : String) (nb : Bool),
       saveIdentity env st addr (.bin s) nb =
         saveIdentity env st addr (.ab (env.fromEncodedBinary s)) nb) := by
  refine ⟨?_, ?_, ?_⟩
  · intro env st addr sess e hs he
    simp [loadSession, hs, he]
  · intro env st addr nid sess fromDB v hs hn hj hv hne
    have hm : maybeMigrateSession env st fromDB =
        .error "_maybeMigrateSession: Unknown session version type!" := by
      simp [maybeMigrateSession, hv, hne]
    exact ⟨hm, by simp [loadSession, hs, hn, hj, hm]⟩
  · intro env st addr s nb
    rfl

/-- Witness: the amended C6 behaviours on concrete runs. -/
theorem claim_C6_witness :
    loadSession baseEnv st0 "bob.1" = .ok (none, st0) ∧
    (maybeMigrateSession baseEnv stBadVer sessBadVer =
       .error "_maybeMigrateSession: Unknown session version type!" ∧
     loadSession baseEnv stBadVer "alice.1" = .ok (none, stBadVer)) ∧
    saveIdentity baseEnv st0 "alice.1" (.bin "zz") false =
      saveIdentity baseEnv st0 "alice.1" (.ab (baseEnv.fromEncodedBinary "zz")) false :=
  ⟨claim_C6_amended.1 baseEnv st0 "bob.1" []
      "could not get conversation for identifier" rfl (by decide),
   claim_C6_amended.2.1 baseEnv stBadVer "alice.1" "c1.1" [("c1.1", .cold sessBadVer)]
      sessBadVer 3 rfl (by decide) (by decide) rfl (by decide),
   claim_C6_amended.2.2 baseEnv st0 "alice.1" "zz" false⟩

/-! ## C1 — saveIdentity on a key change -/

/-- Migration succeeds for the entry (it is hydrated, already `version=2`,
or a legacy record the translator accepts given our key material). -/
def MigrOk (env : StoreEnv) (own : Option KeyPairType) (reg : Option Nat) :
    CacheEntry SessionType SessionRecord → Prop
  | .hydrated _ _ => True
  | .cold fromDB =>
      fromDB.version = some 2 ∨
      (fromDB.version = none ∧ ∃ kp r res, own = some kp ∧ reg = some r ∧
        env.migrateLegacy fromDB.record kp.pubKey r = .ok res)

/-- Preconditions for `_archiveSession` on a well-formed cache entry: its
id is already normalized (the directory maps it to itself) and it can be
migrated. -/
def ArchivePre (env : StoreEnv) (own : Option KeyPairType) (reg : Option Nat)
    (e : CacheEntry SessionType SessionRecord) : Prop :=
  normalizeEncodedAddress env e.fromDB.id = .ok e.fromDB.id ∧ MigrOk env own reg e

/-- The serialized contents `_maybeMigrateSession` would produce for a
raw record (`none` when migration fails). -/
def migratedContents (env : StoreEnv) (own : Option KeyPairType) (reg : Option Nat)
    (s : SessionType) : Option String :=
  if s.version = some 2 then some s.record
  else if s.version ≠ none then none
  else
    match own, reg with
    | some kp, some r => (env.migrateLegacy s.record kp.pubKey r).toOption
    | _, _ => none

/-- The session held by a cache entry reports no current (open) state. -/
def EntryNotOpen (env : StoreEnv) (own : Option KeyPairType) (reg : Option Nat) :
    CacheEntry SessionType SessionRecord → Prop
  | .hydrated _ item => env.recHasCurrent item.contents = false
  | .cold fromDB =>
      ∀ c, migratedContents env own reg fromDB = some c → env.recHasCurrent c = false

theorem maybeMigrate_of_migrOk (env : StoreEnv) (st : StoreState)
    (fromDB : SessionType)
    (h : MigrOk env st.ourIdentityKey st.ourRegistrationId (.cold fromDB)) :
    ∃ item : SessionRecord,
      maybeMigrateSession env st fromDB =
        .ok (item, { st with nextRef := st.nextRef + 1 }) ∧
      migratedContents env st.ourIdentityKey st.ourRegistrationId fromDB =
        some item.contents := by
  rcases h with hv2 | ⟨hvn, kp, r, res, hown, hreg, hmig⟩
  · exact ⟨⟨st.nextRef, fromDB.record⟩, by simp [maybeMigrateSession, hv2],
      by simp [migratedContents, hv2]⟩
  · refine ⟨⟨st.nextRef, res⟩, ?_, ?_⟩
    · simp [maybeMigrateSession, hvn, hown, hreg, hmig]
    · simp [migratedContents, hvn, hown, hreg, hmig, Except.toOption]

theorem jget_of_mem_nodup [DecidableEq κ] (m : JMap κ α) (k : κ) (v : α)
    (hmem : (k, v) ∈ m) (hnd : (m.map Prod.fst).Nodup) : jget m k = some v := by
  induction m with
  | nil => simp at hmem
  | cons p rest ih =>
      rcases List.mem_cons.mp hmem with heq | hmem'
      · rw [← heq]
        simp [jget]
      · obtain ⟨hnotin, hnd'⟩ := List.nodup_cons.mp hnd
        have hne : p.1 ≠ k := by
          intro he
          exact hnotin (he ▸ List.mem_map.mpr ⟨(k, v), hmem', rfl⟩)
        simp [jget, hne, ih hmem' hnd']

/-- The raw session record `storeSession` writes back when `_archiveSession`
persists an archived record under its own (already normalized) id. -/
def archivedFromDB (oldId contents : String) : SessionType :=
  { id := oldId, version := some 2, conversationId := firstPartD oldId,
    deviceId := parseInt10 (secondPartD oldId), record := contents }

/-- Cache entry written back by an archiving `storeSession`. -/
def archEntry (oldId : String) (item : SessionRecord) (c : String) :
    CacheEntry SessionType SessionRecord :=
  .hydrated (archivedFromDB oldId c) { item with contents := c }

/-- Store state after an archiving `storeSession` of entry `oldId`. -/
def archStore (st : StoreState) (m : JMap String (CacheEntry SessionType SessionRecord))
    (oldId : String) (item : SessionRecord) (c : String) (nr : Nat) : StoreState :=
  { st with
    nextRef := nr,
    db := { st.db with
            sessions := jset st.db.sessions oldId (archivedFromDB oldId c) },
    sessions := some (jset m oldId (archEntry oldId item c)) }

theorem archiveSessionEntry_spec (env : StoreEnv) (st : StoreState)
    (m : JMap String (CacheEntry SessionType SessionRecord))
    (e : CacheEntry SessionType SessionRecord)
    (hm : st.sessions = some m)
    (hpre : ArchivePre env st.ourIdentityKey st.ourRegistrationId e)
    (harch : ∀ s, env.recHasCurrent (env.archiveStr s) = false) :
    ∃ st' m', archiveSessionEntry env e st = .ok ((), st') ∧
      st'.sessions = some m' ∧
      st'.ourIdentityKey = st.ourIdentityKey ∧
      st'.ourRegistrationId = st.ourRegistrationId ∧
      st'.identityKeys = st.identityKeys ∧
      st'.events = st.events ∧
      (∀ k, k ≠ e.fromDB.id → jget m' k = jget m k) ∧
      (jget m e.fromDB.id = some e →
        ∃ e', jget m' e.fromDB.id = some e' ∧
          EntryNotOpen env st.ourIdentityKey st.ourRegistrationId e') := by
  obtain ⟨hnorm, hmigr⟩ := hpre
  cases e with
  | hydrated fromDB item =>
      simp only [CacheEntry.fromDB] at hnorm ⊢
      by_cases hopen : env.recHasCurrent item.contents = false
      · refine ⟨st, m, ?_, hm, rfl, rfl, rfl, rfl, fun _ _ => rfl, ?_⟩
        · simp [archiveSessionEntry, CacheEntry.fromDB, hnorm, hopen]
        · intro hget
          exact ⟨_, hget, hopen⟩
      · refine ⟨archStore st m fromDB.id item (env.archiveStr item.contents) st.nextRef,
          jset m fromDB.id (archEntry fromDB.id item (env.archiveStr item.contents)),
          ?_, rfl, rfl, rfl, rfl, rfl, ?_, ?_⟩
        · simp [archiveSessionEntry, CacheEntry.fromDB, hnorm, hopen,
            storeSession, hm, archStore, archEntry, archivedFromDB]
        · intro k hk
          exact jget_jset_ne m fromDB.id k _ (fun he => hk he.symm)
        · intro _
          exact ⟨_, jget_jset_self m fromDB.id _, harch item.contents⟩
  | cold fromDB =>
      simp only [CacheEntry.fromDB] at hnorm ⊢
      obtain ⟨item, hmig, hcontents⟩ := maybeMigrate_of_migrOk env st fromDB hmigr
      by_cases hopen : env.recHasCurrent item.contents = false
      · refine ⟨{ st with nextRef := st.nextRef + 1 }, m, ?_, hm, rfl, rfl, rfl, rfl,
          fun _ _ => rfl, ?_⟩
        · simp [archiveSessionEntry, CacheEntry.fromDB, hnorm, hmig, hopen]
        · intro hget
          refine ⟨_, hget, ?_⟩
          intro c hc
          rw [hcontents] at hc
          cases hc
          exact hopen
      · refine ⟨archStore st m fromDB.id item (env.archiveStr item.contents)
            (st.nextRef + 1),
          jset m fromDB.id (archEntry fromDB.id item (env.archiveStr item.contents)),
          ?_, rfl, rfl, rfl, rfl, rfl, ?_, ?_⟩
        · simp [archiveSessionEntry, CacheEntry.fromDB, hnorm, hmig, hopen,
            storeSession, hm, archStore, archEntry, archivedFromDB]
        · intro k hk
          exact jget_jset_ne m fromDB.id k _ (fun he => hk he.symm)
        · intro _
          exact ⟨_, jget_jset_self m fromDB.id _, harch item.contents⟩

theorem archiveEntryList_spec (env : StoreEnv)
    (harch : ∀ s, env.recHasCurrent (env.archiveStr s) = false)
    (entries : List (CacheEntry SessionType SessionRecord)) :
    ∀ (st : StoreState) (m : JMap String (CacheEntry SessionType SessionRecord)),
      st.sessions = some m →
      (∀ e ∈ entries, ArchivePre env st.ourIdentityKey st.ourRegistrationId e) →
      (∀ e ∈ entries, jget m e.fromDB.id = some e) →
      (entries.map (fun e => e.fromDB.id)).Nodup →
      ∃ st' m', archiveEntryList env entries st = .ok ((), st') ∧
        st'.sessions = some m' ∧
        st'.ourIdentityKey = st.ourIdentityKey ∧
        st'.ourRegistrationId = st.ourRegistrationId ∧
        st'.identityKeys = st.identityKeys ∧
        st'.events = st.events ∧
        (∀ k, (∀ e ∈ entries, e.fromDB.id ≠ k) → jget m' k = jget m k) ∧
        (∀ e ∈ entries, ∃ e', jget m' e.fromDB.id = some e' ∧
           EntryNotOpen env st.ourIdentityKey st.ourRegistrationId e') := by
  induction entries with
  | nil =>
      intro st m hm _ _ _
      exact ⟨st, m, rfl, hm, rfl, rfl, rfl, rfl, fun _ _ => rfl, by simp⟩
  | cons e rest ih =>
      intro st m hm hpre hget hnodup
      obtain ⟨hnotin, hnodup'⟩ := List.nodup_cons.mp hnodup
      have hids_ne : ∀ x ∈ rest, x.fromDB.id ≠ e.fromDB.id := by
        intro x hx he
        apply hnotin
        show e.fromDB.id ∈ List.map (fun y => y.fromDB.id) rest
        rw [← he]
        exact List.mem_map.mpr ⟨x, hx, rfl⟩
      obtain ⟨st1, m1, hrun1, hm1, hown1, hreg1, hik1, hev1, hpres1, hentry1⟩ :=
        archiveSessionEntry_spec env st m e hm (hpre e (by simp)) harch
      have hpre' : ∀ x ∈ rest, ArchivePre env st1.ourIdentityKey st1.ourRegistrationId x := by
        intro x hx
        rw [hown1, hreg1]
        exact hpre x (by simp [hx])
      have hget' : ∀ x ∈ rest, jget m1 x.fromDB.id = some x := by
        intro x hx
        rw [hpres1 _ (hids_ne x hx)]
        exact hget x (by simp [hx])
      obtain ⟨st2, m2, hrun2, hm2, hown2, hreg2, hik2, hev2, hpres2, hentry2⟩ :=
        ih st1 m1 hm1 hpre' hget' hnodup'
      refine ⟨st2, m2, ?_, hm2, by rw [hown2, hown1], by rw [hreg2, hreg1],
        by rw [hik2, hik1], by rw [hev2, hev1], ?_, ?_⟩
      · simp only [archiveEntryList, hrun1, hrun2]
      · intro k hk
        rw [hpres2 k (fun x hx => hk x (by simp [hx])), hpres1 k (hk e (by simp)).symm]
      · intro x hx
        rcases List.mem_cons.mp hx with rfl | hx'
        · obtain ⟨e', he', hnot⟩ := hentry1 (hget x (by simp))
          refine ⟨e', ?_, hnot⟩
          rw [hpres2 _ (fun y hy => hids_ne y hy)]
          exact he'
        · obtain ⟨e', he', hnot⟩ := hentry2 x hx'
          refine ⟨e', he', ?_⟩
          rw [hown1, hreg1] at hnot
          exact hnot

/-- C1 amended: for a peer whose stored identity record is `VERIFIED`
with key `oldKey`, `saveIdentity` with a different key returns `true`
("key changed"), saves the new key cold with `verified = UNVERIFIED` and
`firstUse = false`, emits the `keychange` notification — and archives
every *sibling* session of the peer (same conversation, device id
different from the addressed device), not every session under the peer.
The hypotheses say the caches are hydrated, the address splits as
`identifier.devStr`, the directory resolves (and keeps resolving) the
peer to `convId`, the sessions cache is well-keyed (`hids`, `hnodup`),
and every sibling entry is archivable (`harchable`). -/
theorem claim_C1_amended (env : StoreEnv) (st : StoreState)
    (ik : JMap String (CacheEntry IdentityKeyType PublicKeyH))
    (sess : JMap String (CacheEntry SessionType SessionRecord))
    (encodedAddress identifier devStr convId : String)
    (entry : CacheEntry IdentityKeyType PublicKeyH)
    (oldKey newKey : Bytes) (nb : Bool)
    (hik : st.identityKeys = some ik)
    (hsess : st.sessions = some sess)
    (hsplit : unencodeNumber encodedAddress = [identifier, devStr])
    (hconv : env.getConversationId identifier = some convId)
    (hgoc : env.getOrCreate identifier = some convId)
    (hrec : jget ik convId = some entry)
    (hver : entry.fromDB.verified = VerifiedVERIFIED)
    (hkey : entry.fromDB.publicKey = some oldKey)
    (hne : oldKey ≠ newKey)
    (hsplitN : unencodeNumber (convId ++ "." ++ devStr) = [convId, devStr])
    (hnodup : (sess.map Prod.fst).Nodup)
    (hids : ∀ p ∈ sess, (p.2 : CacheEntry SessionType SessionRecord).fromDB.id = p.1)
    (harchable : ∀ e ∈ jvalues sess,
       (e.fromDB.conversationId = convId &&
         jsNeqOpt e.fromDB.deviceId (parseInt10 devStr)) = true →
       ArchivePre env st.ourIdentityKey st.ourRegistrationId e)
    (harch : ∀ s, env.recHasCurrent (env.archiveStr s) = false) :
    ∃ st', saveIdentity env st encodedAddress (.ab newKey) nb = .ok (true, st') ∧
      (∃ ik', st'.identityKeys = some ik' ∧
        jget ik' convId = some (.cold
          { id := convId, publicKey := some newKey, firstUse := false,
            timestamp := env.now, verified := VerifiedUNVERIFIED,
            nonblockingApproval := nb })) ∧
      StoreEvent.keychange identifier ∈ st'.events ∧
      (∃ sess', st'.sessions = some sess' ∧
        ∀ e ∈ jvalues sess,
          (e.fromDB.conversationId = convId &&
            jsNeqOpt e.fromDB.deviceId (parseInt10 devStr)) = true →
          ∃ e', jget sess' e.fromDB.id = some e' ∧
            EntryNotOpen env st.ourIdentityKey st.ourRegistrationId e') := by
  have hfirst : firstPartD encodedAddress = identifier := by
    simp [firstPartD, hsplit]
  have hsecond : secondPartD encodedAddress = devStr := by
    simp [secondPartD, hsplit]
  have hfirstN : firstPartD (convId ++ "." ++ devStr) = convId := by
    simp [firstPartD, hsplitN]
  have hsecondN : secondPartD (convId ++ "." ++ devStr) = devStr := by
    simp [secondPartD, hsplitN]
  have hnorm : normalizeEncodedAddress env encodedAddress =
      .ok (convId ++ "." ++ devStr) := by
    simp [normalizeEncodedAddress, hfirst, hsecond, hgoc]
  have hgir : getIdentityRecord env st identifier = .ok (some entry.fromDB) := by
    simp [getIdentityRecord, hik, hconv, hrec]
  set newRec : IdentityKeyType :=
    { id := convId, publicKey := some newKey, firstUse := false,
      timestamp := env.now, verified := VerifiedUNVERIFIED,
      nonblockingApproval := nb } with hnewRec
  set st2 : StoreState :=
    { st with
      db := { st.db with identityKeys := jset st.db.identityKeys convId newRec },
      identityKeys := some (jset ik convId (.cold newRec)),
      events := st.events ++ [.keychange identifier] } with hst2def
  have hsess2 : st2.sessions = some sess := by
    rw [hst2def]
    exact hsess
  have hown2 : st2.ourIdentityKey = st.ourIdentityKey := by rw [hst2def]
  have hreg2 : st2.ourRegistrationId = st.ourRegistrationId := by rw [hst2def]
  have hpreE : ∀ e ∈ (jvalues sess).filter (fun entry =>
      entry.fromDB.conversationId = convId &&
        jsNeqOpt entry.fromDB.deviceId (parseInt10 devStr)),
      ArchivePre env st2.ourIdentityKey st2.ourRegistrationId e := by
    intro e he
    obtain ⟨hv, hp⟩ := List.mem_filter.mp he
    rw [hown2, hreg2]
    exact harchable e hv hp
  have hgetE : ∀ e ∈ (jvalues sess).filter (fun entry =>
      entry.fromDB.conversationId = convId &&
        jsNeqOpt entry.fromDB.deviceId (parseInt10 devStr)),
      jget sess e.fromDB.id = some e := by
    intro e he
    obtain ⟨hv, -⟩ := List.mem_filter.mp he
    obtain ⟨p, hp, hpe⟩ := List.mem_map.mp hv
    rw [← hpe, hids p hp]
    exact jget_of_mem_nodup sess p.1 p.2 hp hnodup
  have hnodupE : (((jvalues sess).filter (fun entry =>
      entry.fromDB.conversationId = convId &&
        jsNeqOpt entry.fromDB.deviceId (parseInt10 devStr))).map
        (fun e => e.fromDB.id)).Nodup := by
    have h1 : ((jvalues sess).filter (fun entry =>
        entry.fromDB.conversationId = convId &&
          jsNeqOpt entry.fromDB.deviceId (parseInt10 devStr))).Sublist
        (jvalues sess) := List.filter_sublist _
    have h2 := h1.map (fun e => e.fromDB.id)
    have h3 : (jvalues sess).map (fun e => e.fromDB.id) = sess.map Prod.fst := by
      simp only [jvalues, List.map_map]
      exact List.map_congr_left hids
    rw [h3] at h2
    exact hnodup.sublist h2
  obtain ⟨st3, m3, hrunList, hm3, hown3, hreg3, hik3, hev3, hpres3, hentry3⟩ :=
    archiveEntryList_spec env harch
      ((jvalues sess).filter (fun entry =>
        entry.fromDB.conversationId = convId &&
          jsNeqOpt entry.fromDB.deviceId (parseInt10 devStr)))
      st2 sess hsess2 hpreE hgetE hnodupE
  have hrunArch : archiveSiblingSessions env st2 encodedAddress = .ok ((), st3) := by
    simp only [archiveSiblingSessions, hsess, hnorm, hfirstN, hsecondN]
    exact hrunList
  have hmain : saveIdentity env st encodedAddress (.ab newKey) nb = .ok (true, st3) := by
    rw [hst2def] at hrunArch
    simp only [hnewRec, VerifiedUNVERIFIED] at hrunArch
    simp only [saveIdentity, hik, hfirst, hgir, hgoc, hkey, hver, hne,
      saveIdentityKeyC, trigger]
    simp only [VerifiedVERIFIED, VerifiedUNVERIFIED, VerifiedDEFAULT]
    simp [hrunArch, hne]
  refine ⟨st3, hmain, ⟨jset ik convId (.cold newRec), ?_, ?_⟩, ?_, ⟨m3, hm3, ?_⟩⟩
  · rw [hik3, hst2def]
  · exact jget_jset_self ik convId _
  · rw [hev3, hst2def]
    simp
  · intro e hv hp
    obtain ⟨e', he', hnot⟩ := hentry3 e (List.mem_filter.mpr ⟨hv, hp⟩)
    rw [hown2, hreg2] at hnot
    exact ⟨e', he', hnot⟩

/-- Identity record for `alice` (conversation `c1`), explicitly VERIFIED. -/
def recVer : IdentityKeyType :=
  { id := "c1", publicKey := some [1], firstUse := false, timestamp := 1,
    verified := 1, nonblockingApproval := true }

/-- Identity record saved by the key-change runs below. -/
def recC1new : IdentityKeyType :=
  { id := "c1", publicKey := some [2], firstUse := false, timestamp := 1000000,
    verified := 2, nonblockingApproval := false }

/-- Store with a VERIFIED record for `alice` and one open session, for the
*addressed* device `1` itself. -/
def stC1 : StoreState :=
  { st0 with
    identityKeys := some [("c1", .cold recVer)],
    sessions := some [("c1.1", .hydrated sessDB sessRec)] }

def stC1after : StoreState :=
  { stC1 with
    identityKeys := some [("c1", .cold recC1new)],
    db := { emptyDB with identityKeys := [("c1", recC1new)] },
    events := [.keychange "alice"] }

/-- Claim C1 (as stated) is false on the code: `saveIdentity` with a new
key for a VERIFIED peer does return "key changed" and demote to
UNVERIFIED, but it archives only the *sibling* sessions
(`archiveSiblingSessions` filters `deviceId !== deviceIdNumber`), so the
peer's session for the addressed device itself — here the only session
under the peer — survives un-archived and still open. -/
theorem claim_C1_counterexample :
    saveIdentity baseEnv stC1 "alice.1" (.ab [2]) false = .ok (true, stC1after) ∧
    stC1after.sessions = some [("c1.1", .hydrated sessDB sessRec)] ∧
    baseEnv.recHasCurrent sessRec.contents = true := by
  refine ⟨by decide, by decide, by decide⟩

def sessDB2 : SessionType :=
  { id := "c1.2", version := some 2, conversationId := "c1", deviceId := some 2,
    record := "open" }
def sessRec2 : SessionRecord := { ref := 1, contents := "open" }

/-- Store with a VERIFIED record for `alice`, the addressed device's
session and one open sibling session on device `2`. -/
def stC1w : StoreState :=
  { st0 with
    identityKeys := some [("c1", .cold recVer)],
    sessions := some [("c1.1", .hydrated sessDB sessRec),
                      ("c1.2", .hydrated sessDB2 sessRec2)] }

/-- Witness: the amended C1 theorem on a concrete store with a sibling
session (device 2) that does get archived. -/
theorem claim_C1_witness :
    ∃ st', saveIdentity baseEnv stC1w "alice.1" (.ab [2]) false = .ok (true, st') ∧
      (∃ ik', st'.identityKeys = some ik' ∧
        jget ik' "c1" = some (.cold
          { id := "c1", publicKey := some [2], firstUse := false,
            timestamp := baseEnv.now, verified := VerifiedUNVERIFIED,
            nonblockingApproval := false })) ∧
      StoreEvent.keychange "alice" ∈ st'.events ∧
      (∃ sess', st'.sessions = some sess' ∧
        ∀ e ∈ jvalues [("c1.1", CacheEntry.hydrated sessDB sessRec),
                       ("c1.2", CacheEntry.hydrated sessDB2 sessRec2)],
          (e.fromDB.conversationId = "c1" &&
            jsNeqOpt e.fromDB.deviceId (parseInt10 "1")) = true →
          ∃ e', jget sess' e.fromDB.id = some e' ∧
            EntryNotOpen baseEnv stC1w.ourIdentityKey stC1w.ourRegistrationId e') :=
  claim_C1_amended baseEnv stC1w [("c1", .cold recVer)]
    [("c1.1", .hydrated sessDB sessRec), ("c1.2", .hydrated sessDB2 sessRec2)]
    "alice.1" "alice" "1" "c1" (.cold recVer) [1] [2] false
    rfl rfl (by decide) (by decide) (by decide) (by decide) (by decide) (by decide)
    (by decide) (by decide) (by decide) (by decide)
    (by
      intro e he hp
      simp only [jvalues, List.map_cons, List.map_nil, List.mem_cons,
        List.not_mem_nil, or_false] at he
      rcases he with rfl | rfl
      · exact ⟨by decide, trivial⟩
      · exact ⟨by decide, trivial⟩)
    (fun s => rfl)
